import Mathlib

/-!
Verification development for the cmdsafe tool: a shallow embedding of the
envelope-encryption engine (crypto/crypto.go, crypto_utils.go), of the
record-retrieval pipeline (run.go) and of the attached-mode process
supervisor (run.go, main.go), together with theorems about the properties
the specification states for them.

Byte slices are modelled as lists of naturals.  The AES-CTR keystream and
the HMAC digest function are external primitives (crypto/aes,
crypto/hmac); they enter the embedding as explicit function parameters,
exactly as the Go code receives the cipher and hash as the function
parameters fn and hashFn.  CTR mode is modelled faithfully as the
positionwise XOR of the data with the keystream determined by key and IV.
-/

namespace Cmdsafe

/-- Key models crypto.Key: a byte slice holding derived key material. -/
abbrev Key := List Nat

/-- Encryption models Key.Encryption: the first half of the key, with the
split point at half the total length. -/
def Key.Encryption (k : Key) : List Nat := k.take (k.length / 2)

/-- HMAC models Key.HMAC: the second half of the key. -/
def Key.HMAC (k : Key) : List Nat := k.drop (k.length / 2)

/-- ctrXorFrom xors the data bytes with the keystream bytes starting at
stream position i.  The keystream is given by the function ks from key, IV
and position, modelling cipher.NewCTR followed by XORKeyStream. -/
def ctrXorFrom (ks : List Nat → List Nat → Nat → Nat) (key iv : List Nat) :
    Nat → List Nat → List Nat
  | _, [] => []
  | i, b :: rest => (b ^^^ ks key iv i) :: ctrXorFrom ks key iv (i + 1) rest

/-- ctrXor models one XORKeyStream pass over the whole data. -/
def ctrXor (ks : List Nat → List Nat → Nat → Nat) (key iv data : List Nat) :
    List Nat :=
  ctrXorFrom ks key iv 0 data

/-- validAESKeyLength models the acceptance condition of aes.NewCipher:
the key must be 16, 24 or 32 bytes long. -/
def validAESKeyLength (key : List Nat) : Prop :=
  key.length = 16 ∨ key.length = 24 ∨ key.length = 32

instance (key : List Nat) : Decidable (validAESKeyLength key) := by
  unfold validAESKeyLength; infer_instance

/-- EncryptAESCTR models crypto.EncryptAESCTR.  The Go function draws a
fresh 16-byte IV from the system entropy source; the embedding receives
that entropy as the explicit iv argument.  aes.NewCipher fails on an
invalid key length, returned here as none. -/
def EncryptAESCTR (ks : List Nat → List Nat → Nat → Nat) (iv : List Nat)
    (key plaintext : List Nat) : Option (List Nat × List Nat) :=
  if validAESKeyLength key then
    some (iv, ctrXor ks key iv plaintext)
  else
    none

/-- DecryptAESCTR models crypto.DecryptAESCTR: aes.NewCipher must accept
the key, the IV must have the 16-byte AES block size, and the plaintext is
the keystream XOR of the ciphertext. -/
def DecryptAESCTR (ks : List Nat → List Nat → Nat → Nat)
    (key iv ciphertext : List Nat) : Option (List Nat) :=
  if validAESKeyLength key then
    if iv.length = 16 then
      some (ctrXor ks key iv ciphertext)
    else
      none
  else
    none

/-- algoBytes models the byte slice strconv.Itoa(int(algo)): the decimal
digits of the algorithm tag as ASCII bytes. -/
def algoBytes (a : Nat) : List Nat :=
  (toString a).toList.map Char.toNat

/-- ScryptConfig models the protobuf message ScryptConfig: the persisted
salt and cost parameters of the key derivation. -/
structure ScryptConfig where
  salt : List Nat
  n : Int
  r : Int
  p : Int
deriving DecidableEq

/-- UserKey models the protobuf message UserKey: the derivation metadata
stored next to the ciphertext.  The algorithm tag 0 is KeyAlgo_SCRYPT. -/
structure UserKey where
  hash : List Nat
  algorithm : Nat
  scrypt : Option ScryptConfig
deriving DecidableEq

/-- CryptoEnvelope models the protobuf message CryptoEnvelope.  The
algorithm tag 0 is CipherAlgo_AES256CTR. -/
structure CryptoEnvelope where
  hmac : List Nat
  iv : List Nat
  key : List Nat
  algorithm : Nat
  userKey : Option UserKey
  data : List Nat
deriving DecidableEq

/-- hmacMsg is the exact byte sequence both Encrypt and Decrypt feed to
the HMAC through crypto.Sign: the decimal tag bytes, then the payload IV,
then the wrapped-key field, then the ciphertext, in this order. -/
def hmacMsg (env : CryptoEnvelope) : List Nat :=
  algoBytes env.algorithm ++ env.iv ++ env.key ++ env.data

/-- Encrypt models crypto.Encrypt instantiated with the AES-CTR cipher.
The Go function draws the 32-byte data key and both IVs from the system
entropy source; the embedding receives them as the explicit arguments
dataKey, ivData and ivKey.  hmacFn models hmac.New(hashFn, mackey)
followed by crypto.Sign over the written bytes. -/
def Encrypt (hmacFn : List Nat → List Nat → List Nat)
    (ks : List Nat → List Nat → Nat → Nat)
    (dataKey ivData ivKey : List Nat) (plaintext : List Nat) (userKey : Key) :
    Option CryptoEnvelope :=
  match EncryptAESCTR ks ivData dataKey plaintext with
  | none => none
  | some (iv, ciphertext) =>
    match EncryptAESCTR ks ivKey (Key.Encryption userKey) dataKey with
    | none => none
    | some (keyIV, keyCipher) =>
      let encryptedKey := keyIV ++ keyCipher
      some { hmac := hmacFn (Key.HMAC userKey)
               (algoBytes 0 ++ iv ++ encryptedKey ++ ciphertext),
             iv := iv,
             key := encryptedKey,
             algorithm := 0,
             userKey := none,
             data := ciphertext }

/-- DecErr enumerates the error returns of crypto.Decrypt and of
DecryptCommand, in source order. -/
inductive DecErr where
  | nilEnvelope
  | unsupportedAlgo
  | integrity
  | keyDecrypt
  | dataDecrypt
  | unmarshal
deriving DecidableEq

/-- Outcome is the result of a Go computation that can also panic. -/
inductive Outcome (ε α : Type) where
  | ok (a : α)
  | error (e : ε)
  | panicked
deriving DecidableEq

/-- Decrypt models crypto.Decrypt instantiated with the AES-CTR cipher.
It follows the source order exactly: nil check, algorithm tag check, HMAC
recomputation and comparison, then the slicing of the wrapped-key field at
the AES block size.  The Go expression env.Key[:16] panics when the field
is shorter than 16 bytes, modelled by the panicked outcome. -/
def Decrypt (hmacFn : List Nat → List Nat → List Nat)
    (ks : List Nat → List Nat → Nat → Nat)
    (envOpt : Option CryptoEnvelope) (userKey : Key) :
    Outcome DecErr (List Nat) :=
  match envOpt with
  | none => .error .nilEnvelope
  | some env =>
    if env.algorithm ≠ 0 then .error .unsupportedAlgo
    else
      let sig := hmacFn (Key.HMAC userKey) (hmacMsg env)
      if sig ≠ env.hmac then .error .integrity
      else if env.key.length < 16 then .panicked
      else
        match DecryptAESCTR ks (Key.Encryption userKey)
            (env.key.take 16) (env.key.drop 16) with
        | none => .error .keyDecrypt
        | some key =>
          match DecryptAESCTR ks key env.iv env.data with
          | none => .error .dataDecrypt
          | some pt => .ok pt

/-- Command models the protobuf message cmdsafe.Command: the protected
payload with its redundantly embedded name. -/
structure Command where
  name : String
  executable : String
  args : List String
deriving DecidableEq

/-- DecryptCommand models DecryptCommand from crypto_utils.go.  Its body
repeats crypto.Decrypt verbatim and then unmarshals the plaintext into a
Command; parseCmd models proto.Unmarshal. -/
def DecryptCommand (hmacFn : List Nat → List Nat → List Nat)
    (ks : List Nat → List Nat → Nat → Nat)
    (parseCmd : List Nat → Option Command)
    (envOpt : Option CryptoEnvelope) (userKey : Key) : Outcome DecErr Command :=
  match Decrypt hmacFn ks envOpt userKey with
  | .panicked => .panicked
  | .error e => .error e
  | .ok pt =>
    match parseCmd pt with
    | none => .error .unmarshal
    | some c => .ok c

/-- RetrieveErr enumerates the error returns of retrieveCommandData in
run.go, in source order. -/
inductive RetrieveErr where
  | notFound
  | deserialize
  | unsupportedKeyAlgo
  | unsupportedCipherAlgo
  | keyDerivation
  | incorrectPassword
  | decrypt (e : DecErr)
  | nameMismatch
deriving DecidableEq

/-- retrieveCommandData models retrieveCommandData from run.go: load the
stored bytes under the handle, unmarshal the envelope, check both
algorithm tags, derive the user key with the persisted scrypt parameters,
compare its hash against the stored hash, decrypt the command, and reject
it when the embedded name differs from the handle.  load models the DB
lookup, parseEnv models proto.Unmarshal of the envelope (none covers both
an unmarshal error and a missing UserKey or Scrypt submessage, which the
source folds into the same error return), scryptF models
crypto.NewScryptKey and hashK models Key.Hash. -/
def retrieveCommandData
    (load : String → Option (List Nat))
    (parseEnv : List Nat → Option CryptoEnvelope)
    (scryptF : List Nat → List Nat → Int → Int → Int → Option (List Nat))
    (hashK : List Nat → List Nat)
    (hmacFn : List Nat → List Nat → List Nat)
    (ks : List Nat → List Nat → Nat → Nat)
    (parseCmd : List Nat → Option Command)
    (handle : String) (password : List Nat) : Outcome RetrieveErr Command :=
  match load handle with
  | none => .error .notFound
  | some msg =>
    match parseEnv msg with
    | none => .error .deserialize
    | some env =>
      match env.userKey with
      | none => .error .deserialize
      | some meta =>
        match meta.scrypt with
        | none => .error .deserialize
        | some sc =>
          if meta.algorithm ≠ 0 then .error .unsupportedKeyAlgo
          else if env.algorithm ≠ 0 then .error .unsupportedCipherAlgo
          else
            match scryptF password sc.salt sc.n sc.r sc.p with
            | none => .error .keyDerivation
            | some key =>
              if hashK key ≠ meta.hash then .error .incorrectPassword
              else
                match DecryptCommand hmacFn ks parseCmd (some env) key with
                | .panicked => .panicked
                | .error e => .error (.decrypt e)
                | .ok cmd =>
                  if cmd.name ≠ handle then .error .nameMismatch
                  else .ok cmd

/-! Attached-mode supervisor: exit status propagation (run.go runCmd,
doCmdRun and main.go main). -/

/-- WaitErr classifies a non-nil error returned by Cmd.Wait, as consumed
by the type switches in runCmd. -/
inductive WaitErr where
  | exitError (status : Nat)
  | exitErrorNoStatus
  | other
deriving DecidableEq

/-- goWait models the documented contract of the Go standard library
Cmd.Wait for a child that ran to completion: a nil error for exit code 0,
otherwise an ExitError whose WaitStatus carries the exit code. -/
def goWait (code : Nat) : Option WaitErr :=
  if code = 0 then none else some (.exitError code)

/-- runCmd models runCmd from run.go.  The argument is none when
runCmdAsync failed to start the child, otherwise the value received from
the exit channel.  Returns the exit status together with whether a non-nil
error is returned alongside it. -/
def runCmd (start : Option (Option WaitErr)) : Nat × Bool :=
  match start with
  | none => (1, true)
  | some none => (0, false)
  | some (some (.exitError s)) => (s, true)
  | some (some .exitErrorNoStatus) => (1, true)
  | some (some .other) => (1, true)

/-- doCmdRun models the attached path of doCmdRun from run.go: a password
prompt failure or a retrieval error short-circuits with status 1 and an
error, otherwise the result of runCmd is passed through. -/
def doCmdRun (pwd : Option Unit) (retr : Outcome RetrieveErr Command)
    (start : Option (Option WaitErr)) : Outcome Unit (Nat × Bool) :=
  match pwd with
  | none => .ok (1, true)
  | some _ =>
    match retr with
    | .panicked => .panicked
    | .error _ => .ok (1, true)
    | .ok _ => .ok (runCmd start)

/-- mainExit models the tail of main in main.go: log the error, exit with
code 1 when the status is zero but an error occurred, otherwise exit with
the status itself. -/
def mainExit (r : Nat × Bool) : Nat :=
  if r.1 = 0 ∧ r.2 = true then 1 else r.1

/-- toolExit composes doCmdRun with the exit logic of main: the process
exit code of the whole tool for a run invocation. -/
def toolExit (pwd : Option Unit) (retr : Outcome RetrieveErr Command)
    (start : Option (Option WaitErr)) : Outcome Unit Nat :=
  match doCmdRun pwd retr start with
  | .panicked => .panicked
  | .error e => .error e
  | .ok r => .ok (mainExit r)

/-! Attached-mode supervisor: the concurrent structure of runCmdAsync.
The system has three tasks: the waiter goroutine (cmd.Wait, then close
exitCh, then close waitCh), the main flow of runCmd (receive from exitCh),
and the signal-forwarding goroutine (select on signalCh and waitCh).
Child termination and signal arrival are environment steps.  The select
statement may choose any ready case, so a pending signal can be forwarded
even when waitCh is already closed. -/

/-- SupState is the joint state of the supervisor tasks.  waiterPC is 0
while the waiter goroutine sits in cmd.Wait, 1 before the conditional
buffered send of the non-nil Wait error to exitCh, 2 before
close(exitCh), 3 before close(waitCh) and 4 when it is done.  exitSent
records that an error value sits in the one-slot buffer of exitCh.
fwdAfterComplete records that a signal forwarding occurred while waitCh
was already closed. -/
structure SupState where
  childRunning : Bool
  waiterPC : Nat
  exitSent : Bool
  exitClosed : Bool
  waitClosed : Bool
  mainReturned : Bool
  fwdDone : Bool
  sigPending : Bool
  fwdAfterComplete : Bool
deriving DecidableEq

/-- SupStep is the interleaving small-step relation of the supervisor.
The waiter goroutine first sends a non-nil Wait error to the buffered
exitCh (sendExitErr; skipSendExit is the nil-error case of a child that
exited with code 0), and only then closes exitCh and waitCh.  The main
flow of runCmd returns from its receive either by taking the buffered
value, possibly before close(exitCh) runs (mainRecvValue), or from the
closed empty channel (mainRecvClosed). -/
inductive SupStep : SupState → SupState → Prop where
  | childExits (s : SupState) : s.childRunning = true →
      SupStep s { s with childRunning := false }
  | waitReturns (s : SupState) : s.childRunning = false → s.waiterPC = 0 →
      SupStep s { s with waiterPC := 1 }
  | sendExitErr (s : SupState) : s.waiterPC = 1 →
      SupStep s { s with waiterPC := 2, exitSent := true }
  | skipSendExit (s : SupState) : s.waiterPC = 1 →
      SupStep s { s with waiterPC := 2 }
  | closeExitCh (s : SupState) : s.waiterPC = 2 →
      SupStep s { s with waiterPC := 3, exitClosed := true }
  | closeWaitCh (s : SupState) : s.waiterPC = 3 →
      SupStep s { s with waiterPC := 4, waitClosed := true }
  | mainRecvValue (s : SupState) : s.exitSent = true → s.mainReturned = false →
      SupStep s { s with mainReturned := true, exitSent := false }
  | mainRecvClosed (s : SupState) : s.exitSent = false → s.exitClosed = true →
      s.mainReturned = false →
      SupStep s { s with mainReturned := true }
  | sigArrives (s : SupState) : s.sigPending = false →
      SupStep s { s with sigPending := true }
  | fwdSignal (s : SupState) : s.fwdDone = false → s.sigPending = true →
      SupStep s { s with sigPending := false,
                         fwdAfterComplete := s.fwdAfterComplete || s.waitClosed }
  | fwdObserves (s : SupState) : s.fwdDone = false → s.waitClosed = true →
      SupStep s { s with fwdDone := true }

/-- supInit is the state right after runCmdAsync returned successfully:
the child runs, both channels are open and empty, both goroutines are
active. -/
def supInit : SupState :=
  { childRunning := true, waiterPC := 0, exitSent := false,
    exitClosed := false, waitClosed := false, mainReturned := false,
    fwdDone := false, sigPending := false, fwdAfterComplete := false }

/-- SupReachable holds for the states the supervisor can reach from the
initial state. -/
def SupReachable (s : SupState) : Prop :=
  Relation.ReflTransGen SupStep supInit s

/-- SupInv is the inductive invariant of the supervisor: the waiter
program counter drives the channels, the channels carry a value or are
closed only after the child exited, the main flow returns only after the
exit result was published, and the forwarder terminates only after waitCh
was closed. -/
def SupInv (s : SupState) : Prop :=
  s.waiterPC ≤ 4 ∧
  (1 ≤ s.waiterPC → s.childRunning = false) ∧
  (s.exitClosed = true ↔ 3 ≤ s.waiterPC) ∧
  (s.waitClosed = true ↔ 4 ≤ s.waiterPC) ∧
  (s.exitSent = true → 2 ≤ s.waiterPC) ∧
  (s.mainReturned = true → 2 ≤ s.waiterPC) ∧
  (s.fwdDone = true → s.waitClosed = true)

/-- supStateA is reached after the steps childExits, waitReturns,
sendExitErr, mainRecvValue: runCmd has already returned to its caller,
having consumed the buffered ExitError, while exitCh is not yet closed
and the forwarding goroutine is still running with waitCh still open. -/
def supStateA : SupState :=
  { childRunning := false, waiterPC := 2, exitSent := false,
    exitClosed := false, waitClosed := false, mainReturned := true,
    fwdDone := false, sigPending := false, fwdAfterComplete := false }

/-- supStateB is reached after the steps sigArrives, childExits,
waitReturns, skipSendExit, closeExitCh, closeWaitCh, fwdSignal: a signal
that was pending when the completion signal fired is forwarded
afterwards. -/
def supStateB : SupState :=
  { childRunning := false, waiterPC := 4, exitSent := false,
    exitClosed := true, waitClosed := true, mainReturned := false,
    fwdDone := false, sigPending := false, fwdAfterComplete := true }

/-! Concrete instances used by witnesses: a toy keystream, a toy digest
function, a toy scrypt and a toy fast hash, together with a concrete
honest envelope.  They exist only to evaluate the definitions above on
closed inputs. -/

/-- tKS is a concrete keystream function for witnesses. -/
def tKS (key iv : List Nat) (i : Nat) : Nat :=
  (key.sum + iv.sum * 2 + i * 3) % 256

/-- tHMAC is a concrete digest function for witnesses. -/
def tHMAC (key msg : List Nat) : List Nat :=
  [key.sum % 256, msg.length % 256, msg.sum % 256]

/-- tHash is a concrete fast hash for witnesses, standing in for the
SHA-256 of Key.Hash. -/
def tHash (k : List Nat) : List Nat :=
  [k.length % 256, (k.sum + 1) % 256]

/-- tScryptFn is a concrete derivation function for witnesses: it returns
a 64-byte key determined by password and salt. -/
def tScryptFn (pw salt : List Nat) (_n _r _p : Int) : Option (List Nat) :=
  some (List.replicate 64 ((pw.sum + salt.sum) % 256))

/-- tPwd is the correct password of the concrete record. -/
def tPwd : List Nat := [7]

/-- tSalt is the persisted salt of the concrete record. -/
def tSalt : List Nat := [3, 4]

/-- tUserKey is the key tScryptFn derives from tPwd and tSalt. -/
def tUserKey : Key := List.replicate 64 14

/-- tDataKey is the random 32-byte data key of the concrete envelope. -/
def tDataKey : List Nat := List.replicate 32 9

/-- tIvD is the random payload IV of the concrete envelope. -/
def tIvD : List Nat := List.replicate 16 1

/-- tIvK is the random key-wrapping IV of the concrete envelope. -/
def tIvK : List Nat := List.replicate 16 2

/-- tP is the plaintext of the concrete envelope. -/
def tP : List Nat := [10, 20, 30]

/-- tEnv is the envelope Encrypt produces from the concrete inputs. -/
def tEnv : CryptoEnvelope :=
  { hmac := tHMAC (Key.HMAC tUserKey)
      (algoBytes 0 ++ tIvD ++ (tIvK ++ ctrXor tKS (Key.Encryption tUserKey) tIvK tDataKey)
        ++ ctrXor tKS tDataKey tIvD tP),
    iv := tIvD,
    key := tIvK ++ ctrXor tKS (Key.Encryption tUserKey) tIvK tDataKey,
    algorithm := 0,
    userKey := none,
    data := ctrXor tKS tDataKey tIvD tP }

/-- tMeta is the derivation metadata of the concrete record. -/
def tMeta : UserKey :=
  { hash := tHash tUserKey, algorithm := 0,
    scrypt := some { salt := tSalt, n := 16384, r := 8, p := 1 } }

/-- tEnvM is the concrete envelope with its metadata attached, as save.go
stores it. -/
def tEnvM : CryptoEnvelope := { tEnv with userKey := some tMeta }

/-- tLoad is a concrete store holding one record under the handle cmd. -/
def tLoad (h : String) : Option (List Nat) :=
  if h = "cmd" then some [1] else none

/-- tParseEnv is a concrete envelope unmarshaller for witnesses. -/
def tParseEnv (_ : List Nat) : Option CryptoEnvelope := some tEnvM

/-- tParseCmdGood is a concrete command unmarshaller whose record name
matches the handle cmd. -/
def tParseCmdGood (_ : List Nat) : Option Command :=
  some { name := "cmd", executable := "exe", args := [] }

/-- tParseCmdBad is a concrete command unmarshaller whose record name does
not match the handle cmd. -/
def tParseCmdBad (_ : List Nat) : Option Command :=
  some { name := "other", executable := "exe", args := [] }

/-- flipBit flips bit b of the byte at index i of the slice; indices past
the end leave the slice unchanged, matching what a tamper experiment can
do to a stored field. -/
def flipBit (l : List Nat) (i b : Nat) : List Nat :=
  l.set i ((l.getD i 0) ^^^ (1 <<< b))

/-- tEnvShort is a concrete envelope whose wrapped-key field is empty but
whose hmac field holds exactly the digest Decrypt recomputes, so the HMAC
comparison passes. -/
def tEnvShort : CryptoEnvelope :=
  { hmac := tHMAC (Key.HMAC tUserKey)
      (hmacMsg { tEnv with key := ([] : List Nat) }),
    iv := tEnv.iv,
    key := [],
    algorithm := 0,
    userKey := none,
    data := tEnv.data }

/-! Helper lemmas. -/

theorem ctrXorFrom_length (ks : List Nat → List Nat → Nat → Nat)
    (key iv : List Nat) (i : Nat) (l : List Nat) :
    (ctrXorFrom ks key iv i l).length = l.length := by
  induction l generalizing i with
  | nil => rfl
  | cons b rest ih => simp [ctrXorFrom, ih]

theorem ctrXorFrom_ctrXorFrom (ks : List Nat → List Nat → Nat → Nat)
    (key iv : List Nat) (i : Nat) (l : List Nat) :
    ctrXorFrom ks key iv i (ctrXorFrom ks key iv i l) = l := by
  induction l generalizing i with
  | nil => rfl
  | cons b rest ih =>
    simp [ctrXorFrom, ih, Nat.xor_assoc]

theorem ctrXor_length (ks : List Nat → List Nat → Nat → Nat)
    (key iv l : List Nat) : (ctrXor ks key iv l).length = l.length :=
  ctrXorFrom_length ks key iv 0 l

theorem ctrXor_ctrXor (ks : List Nat → List Nat → Nat → Nat)
    (key iv l : List Nat) : ctrXor ks key iv (ctrXor ks key iv l) = l :=
  ctrXorFrom_ctrXorFrom ks key iv 0 l

/-! Claim theorems. -/

/-- C10: for every key k, the concatenation of Key.Encryption k and
Key.HMAC k is exactly k, with the split point at half the length; in
particular a 64-byte key is partitioned into two disjoint 32-byte halves,
so the two halves never share a byte. -/
theorem key_halves_partition (k : Key) :
    Key.Encryption k ++ Key.HMAC k = k ∧
    (k.length = 64 → (Key.Encryption k).length = 32 ∧ (Key.HMAC k).length = 32) := by
  refine ⟨?_, fun h => ⟨?_, ?_⟩⟩
  · simp [Key.Encryption, Key.HMAC]
  · simp [Key.Encryption, h]
  · simp [Key.HMAC, h]

/-- Witness for C10 at the concrete 64-byte key tUserKey. -/
theorem key_halves_partition_witness :
    (Key.Encryption tUserKey ++ Key.HMAC tUserKey = tUserKey ∧
      (tUserKey.length = 64 →
        (Key.Encryption tUserKey).length = 32 ∧ (Key.HMAC tUserKey).length = 32)) ∧
    ((Key.Encryption tUserKey).length = 32 ∧ (Key.HMAC tUserKey).length = 32) :=
  ⟨key_halves_partition tUserKey, (key_halves_partition tUserKey).2 (by decide)⟩

/-- C1: decrypting with the same user key the envelope Encrypt produced
returns exactly the original plaintext, for every plaintext, every 64-byte
user key, and every well-formed randomness (a 32-byte data key and two
16-byte IVs, the shapes the Go code always generates). -/
theorem encrypt_decrypt_roundtrip (hmacFn : List Nat → List Nat → List Nat)
    (ks : List Nat → List Nat → Nat → Nat)
    (P K dataKey ivD ivK : List Nat)
    (hK : K.length = 64) (hdk : dataKey.length = 32)
    (hivd : ivD.length = 16) (hivk : ivK.length = 16) :
    Decrypt hmacFn ks (Encrypt hmacFn ks dataKey ivD ivK P K) K = .ok P := by
  have hvdk : validAESKeyLength dataKey := Or.inr (Or.inr hdk)
  have henc : (Key.Encryption K).length = 32 := by
    simp [Key.Encryption, hK]
  have hvenc : validAESKeyLength (Key.Encryption K) := Or.inr (Or.inr henc)
  have e1 : EncryptAESCTR ks ivD dataKey P = some (ivD, ctrXor ks dataKey ivD P) := by
    simp [EncryptAESCTR, hvdk]
  have e2 : EncryptAESCTR ks ivK (Key.Encryption K) dataKey
      = some (ivK, ctrXor ks (Key.Encryption K) ivK dataKey) := by
    simp [EncryptAESCTR, hvenc]
  set ct := ctrXor ks dataKey ivD P with hct
  set kc := ctrXor ks (Key.Encryption K) ivK dataKey with hkc
  have hkclen : kc.length = 32 := by
    rw [hkc, ctrXor_length, hdk]
  have hkeylen : (ivK ++ kc).length = 48 := by
    simp [hivk, hkclen]
  have htake : (ivK ++ kc).take 16 = ivK := by
    rw [← hivk]; exact List.take_left ivK kc
  have hdrop : (ivK ++ kc).drop 16 = kc := by
    rw [← hivk]; exact List.drop_left ivK kc
  have d1 : DecryptAESCTR ks (Key.Encryption K) ivK kc = some dataKey := by
    simp [DecryptAESCTR, hvenc, hivk, hkc, ctrXor_ctrXor]
  have d2 : DecryptAESCTR ks dataKey ivD ct = some P := by
    simp [DecryptAESCTR, hvdk, hivd, hct, ctrXor_ctrXor]
  simp only [Encrypt, e1, e2]
  simp only [Decrypt, hmacMsg, hkeylen, htake, hdrop, d1, d2]
  simp

/-- Witness for C1 at the concrete inputs of the toy instance. -/
theorem encrypt_decrypt_roundtrip_witness :
    Decrypt tHMAC tKS (Encrypt tHMAC tKS tDataKey tIvD tIvK tP tUserKey) tUserKey
      = .ok tP :=
  encrypt_decrypt_roundtrip tHMAC tKS tP tUserKey tDataKey tIvD tIvK
    (by decide) (by decide) (by decide) (by decide)

theorem encrypt_fields (hmacFn : List Nat → List Nat → List Nat)
    (ks : List Nat → List Nat → Nat → Nat)
    (dataKey ivD ivK P : List Nat) (K : Key) (env : CryptoEnvelope)
    (hEnc : Encrypt hmacFn ks dataKey ivD ivK P K = some env) :
    env.algorithm = 0 ∧ env.hmac = hmacFn (Key.HMAC K) (hmacMsg env) := by
  unfold Encrypt at hEnc
  cases h1 : EncryptAESCTR ks ivD dataKey P with
  | none => rw [h1] at hEnc; cases hEnc
  | some pr1 =>
    obtain ⟨iv, ct⟩ := pr1
    rw [h1] at hEnc
    cases h2 : EncryptAESCTR ks ivK (Key.Encryption K) dataKey with
    | none => rw [h2] at hEnc; cases hEnc
    | some pr2 =>
      obtain ⟨keyIV, keyCipher⟩ := pr2
      rw [h2] at hEnc
      simp only [Option.some.injEq] at hEnc
      subst hEnc
      exact ⟨rfl, rfl⟩

theorem decrypt_integrity_of_mismatch (hmacFn : List Nat → List Nat → List Nat)
    (ks : List Nat → List Nat → Nat → Nat) (env : CryptoEnvelope) (K : Key)
    (ha : env.algorithm = 0)
    (hne : hmacFn (Key.HMAC K) (hmacMsg env) ≠ env.hmac) :
    Decrypt hmacFn ks (some env) K = .error .integrity := by
  simp [Decrypt, ha, hne]

/-- C2: Decrypt is fail-closed in a fixed order.  An envelope whose
algorithm tag is not the supported suite is rejected with the
unsupported-algorithm error, and the result does not depend on the digest
function or the keystream, so no HMAC computation or decryption can have
influenced it.  An envelope whose stored hmac differs from the recomputed
digest is rejected with the integrity error, and the result does not
depend on the keystream, so no decryption of the key or data fields can
have influenced it and no plaintext is returned. -/
theorem decrypt_fail_closed (env : CryptoEnvelope) (K : Key) :
    (env.algorithm ≠ 0 →
      ∀ (hmacFn : List Nat → List Nat → List Nat)
        (ks : List Nat → List Nat → Nat → Nat),
        Decrypt hmacFn ks (some env) K = .error .unsupportedAlgo) ∧
    (env.algorithm = 0 →
      ∀ hmacFn : List Nat → List Nat → List Nat,
        hmacFn (Key.HMAC K) (hmacMsg env) ≠ env.hmac →
        ∀ ks : List Nat → List Nat → Nat → Nat,
          Decrypt hmacFn ks (some env) K = .error .integrity) := by
  constructor
  · intro h hmacFn ks
    simp [Decrypt, h]
  · intro ha hmacFn hne ks
    exact decrypt_integrity_of_mismatch hmacFn ks env K ha hne

/-- Witness for C2: a wrong algorithm tag and a wrong stored hmac on the
concrete envelope. -/
theorem decrypt_fail_closed_witness :
    Decrypt tHMAC tKS (some { tEnv with algorithm := 1 }) tUserKey
      = .error .unsupportedAlgo ∧
    Decrypt tHMAC tKS (some { tEnv with hmac := [0, 0, 0] }) tUserKey
      = .error .integrity :=
  ⟨(decrypt_fail_closed { tEnv with algorithm := 1 } tUserKey).1 (by decide) tHMAC tKS,
   (decrypt_fail_closed { tEnv with hmac := [0, 0, 0] } tUserKey).2 (by decide)
     tHMAC (by decide) tKS⟩

/-- C3: Encrypt signs exactly the ordered concatenation of the decimal
algorithm tag, the payload IV, the wrapped-key field and the ciphertext,
keyed by the second half of the user key; Decrypt accepts only envelopes
whose stored hmac equals the digest recomputed over that same
concatenation with the second half of the user key, and on a mismatch it
returns the integrity error with a result that does not depend on the
keystream, hence before any field is decrypted or used. -/
theorem hmac_exact_fields (hmacFn : List Nat → List Nat → List Nat)
    (ks : List Nat → List Nat → Nat → Nat)
    (dataKey ivD ivK P : List Nat) (K : Key) (env : CryptoEnvelope)
    (hEnc : Encrypt hmacFn ks dataKey ivD ivK P K = some env) :
    env.hmac = hmacFn (Key.HMAC K)
      (algoBytes env.algorithm ++ env.iv ++ env.key ++ env.data) ∧
    (∀ (env' : CryptoEnvelope) (K' : Key) (pt : List Nat)
        (ks' : List Nat → List Nat → Nat → Nat),
      Decrypt hmacFn ks' (some env') K' = .ok pt →
      hmacFn (Key.HMAC K')
          (algoBytes env'.algorithm ++ env'.iv ++ env'.key ++ env'.data)
        = env'.hmac) ∧
    (∀ (env' : CryptoEnvelope) (K' : Key),
      env'.algorithm = 0 →
      hmacFn (Key.HMAC K') (hmacMsg env') ≠ env'.hmac →
      ∀ ks' : List Nat → List Nat → Nat → Nat,
        Decrypt hmacFn ks' (some env') K' = .error .integrity) := by
  refine ⟨?_, ?_, ?_⟩
  · exact (encrypt_fields hmacFn ks dataKey ivD ivK P K env hEnc).2
  · intro env' K' pt ks' h
    by_cases ha : env'.algorithm = 0
    · by_cases hs : hmacFn (Key.HMAC K') (hmacMsg env') = env'.hmac
      · exact hs
      · exfalso
        rw [decrypt_integrity_of_mismatch hmacFn ks' env' K' ha hs] at h
        cases h
    · exfalso
      simp [Decrypt, ha] at h
  · intro env' K' ha hne ks'
    exact decrypt_integrity_of_mismatch hmacFn ks' env' K' ha hne

/-- Witness for C3 at the concrete envelope. -/
theorem hmac_exact_fields_witness :
    tEnv.hmac = tHMAC (Key.HMAC tUserKey)
      (algoBytes tEnv.algorithm ++ tEnv.iv ++ tEnv.key ++ tEnv.data) :=
  (hmac_exact_fields tHMAC tKS tDataKey tIvD tIvK tP tUserKey tEnv (by decide)).1

/-- C9: Decrypt slices the wrapped-key field at the fixed 16-byte AES
block size without a length guard, so every envelope whose key field is
shorter than 16 bytes but whose stored hmac matches the recomputed digest
makes Decrypt panic with an out-of-range slice instead of returning an
error. -/
theorem decrypt_short_key_panics (hmacFn : List Nat → List Nat → List Nat)
    (ks : List Nat → List Nat → Nat → Nat) (env : CryptoEnvelope) (K : Key)
    (halg : env.algorithm = 0) (hlen : env.key.length < 16)
    (hsig : hmacFn (Key.HMAC K) (hmacMsg env) = env.hmac) :
    Decrypt hmacFn ks (some env) K = .panicked := by
  simp [Decrypt, halg, hsig, hlen]

/-- Witness for C9: the concrete envelope with an empty wrapped-key field
signed with the matching user key. -/
theorem decrypt_short_key_panics_witness :
    Decrypt tHMAC tKS (some tEnvShort) tUserKey = .panicked :=
  decrypt_short_key_panics tHMAC tKS tEnvShort tUserKey
    (by decide) (by decide) (by decide)

/-- Counterexample for C4: on the honestly produced concrete envelope
tEnv, flipping bit 0 of the algorithm field and calling Decrypt with the
same user key yields the unsupported-algorithm error of the tag check, not
an IntegrityError, so the claim that every single-bit flip in iv, key,
data or algorithm yields an IntegrityError is false. -/
theorem tamper_algorithm_counterexample :
    Encrypt tHMAC tKS tDataKey tIvD tIvK tP tUserKey = some tEnv ∧
    Decrypt tHMAC tKS (some { tEnv with algorithm := tEnv.algorithm ^^^ (1 <<< 0) })
        tUserKey = .error .unsupportedAlgo ∧
    Decrypt tHMAC tKS (some { tEnv with algorithm := tEnv.algorithm ^^^ (1 <<< 0) })
        tUserKey ≠ .error .integrity :=
  ⟨by decide, by decide, by decide⟩

/-- C4 amended: for every envelope honestly produced by Encrypt under
user key K, flipping any single bit of the iv, key or data field yields
the IntegrityError whenever the digest recomputed over the tampered fields
differs from the stored hmac (which a collision-free digest guarantees),
and in that case no plaintext is returned; flipping any single bit of the
algorithm field yields the unsupported-algorithm error of the tag check
instead.  In no such case is a plaintext different from the original
returned. -/
theorem decrypt_tamper_detection (hmacFn : List Nat → List Nat → List Nat)
    (ks : List Nat → List Nat → Nat → Nat)
    (dataKey ivD ivK P : List Nat) (K : Key) (env : CryptoEnvelope)
    (hEnc : Encrypt hmacFn ks dataKey ivD ivK P K = some env) :
    (∀ i b,
      hmacFn (Key.HMAC K) (hmacMsg { env with iv := flipBit env.iv i b }) ≠ env.hmac →
      Decrypt hmacFn ks (some { env with iv := flipBit env.iv i b }) K
        = .error .integrity) ∧
    (∀ i b,
      hmacFn (Key.HMAC K) (hmacMsg { env with key := flipBit env.key i b }) ≠ env.hmac →
      Decrypt hmacFn ks (some { env with key := flipBit env.key i b }) K
        = .error .integrity) ∧
    (∀ i b,
      hmacFn (Key.HMAC K) (hmacMsg { env with data := flipBit env.data i b }) ≠ env.hmac →
      Decrypt hmacFn ks (some { env with data := flipBit env.data i b }) K
        = .error .integrity) ∧
    (∀ b,
      Decrypt hmacFn ks (some { env with algorithm := env.algorithm ^^^ (1 <<< b) }) K
        = .error .unsupportedAlgo) := by
  have halg : env.algorithm = 0 :=
    (encrypt_fields hmacFn ks dataKey ivD ivK P K env hEnc).1
  refine ⟨?_, ?_, ?_, ?_⟩
  · intro i b hne
    exact decrypt_integrity_of_mismatch hmacFn ks _ K halg hne
  · intro i b hne
    exact decrypt_integrity_of_mismatch hmacFn ks _ K halg hne
  · intro i b hne
    exact decrypt_integrity_of_mismatch hmacFn ks _ K halg hne
  · intro b
    have hflip : env.algorithm ^^^ (1 <<< b) ≠ 0 := by
      rw [halg, Nat.zero_xor, Nat.one_shiftLeft]
      exact Nat.pos_iff_ne_zero.mp (Nat.pos_pow_of_pos b (by omega))
    simp [Decrypt, hflip]

/-- Witness for C4 amended: flipping bit 0 of the first iv byte of the
concrete envelope yields the integrity error. -/
theorem decrypt_tamper_detection_witness :
    Decrypt tHMAC tKS (some { tEnv with iv := flipBit tEnv.iv 0 0 }) tUserKey
      = .error .integrity :=
  (decrypt_tamper_detection tHMAC tKS tDataKey tIvD tIvK tP tUserKey tEnv
      (by decide)).1 0 0 (by decide)

/-- C5: retrieveCommandData returns a record only when the name embedded
in the decrypted record equals the storage handle it was retrieved under;
when the whole pipeline succeeds up to decryption but the embedded name
differs from the handle, it returns the name-mismatch error and no command
data. -/
theorem retrieve_handle_binding
    (load : String → Option (List Nat))
    (parseEnv : List Nat → Option CryptoEnvelope)
    (scryptF : List Nat → List Nat → Int → Int → Int → Option (List Nat))
    (hashK : List Nat → List Nat)
    (hmacFn : List Nat → List Nat → List Nat)
    (ks : List Nat → List Nat → Nat → Nat)
    (parseCmd : List Nat → Option Command)
    (handle : String) (pwd : List Nat) :
    (∀ cmd : Command,
      retrieveCommandData load parseEnv scryptF hashK hmacFn ks parseCmd handle pwd
        = .ok cmd → cmd.name = handle) ∧
    (∀ (msg : List Nat) (env : CryptoEnvelope) (meta : UserKey)
        (sc : ScryptConfig) (key : List Nat) (cmd : Command),
      load handle = some msg →
      parseEnv msg = some env →
      env.userKey = some meta →
      meta.scrypt = some sc →
      meta.algorithm = 0 →
      env.algorithm = 0 →
      scryptF pwd sc.salt sc.n sc.r sc.p = some key →
      hashK key = meta.hash →
      DecryptCommand hmacFn ks parseCmd (some env) key = .ok cmd →
      cmd.name ≠ handle →
      retrieveCommandData load parseEnv scryptF hashK hmacFn ks parseCmd handle pwd
        = .error .nameMismatch) := by
  constructor
  · intro cmd h
    unfold retrieveCommandData at h
    repeat' split at h
    all_goals simp_all
  · intro msg env meta sc key cmd hload hparse hmeta hsc hka hca hkey hhash hdec hname
    unfold retrieveCommandData
    simp only [hload, hparse, hmeta, hsc, hkey, hdec]
    simp [hka, hca, hhash, hname]

/-- Witness for C5: the concrete store with a record whose embedded name
differs from the handle is rejected with the name-mismatch error. -/
theorem retrieve_handle_binding_witness :
    retrieveCommandData tLoad tParseEnv tScryptFn tHash tHMAC tKS tParseCmdBad
        "cmd" tPwd = .error .nameMismatch :=
  (retrieve_handle_binding tLoad tParseEnv tScryptFn tHash tHMAC tKS tParseCmdBad
      "cmd" tPwd).2 [1] tEnvM tMeta { salt := tSalt, n := 16384, r := 8, p := 1 }
    tUserKey { name := "other", executable := "exe", args := [] }
    (by decide) (by decide) (by decide) (by decide) (by decide) (by decide)
    (by decide) (by decide) (by decide) (by decide)

/-- C6: when the key derived from the supplied password with the persisted
salt and cost parameters has a hash different from the stored hash,
retrieveCommandData fails with the incorrect-password error, and the
result does not depend on the digest function, the keystream or the
command unmarshaller, so no HMAC verification or decryption can have been
attempted; and a key whose digest of the envelope fields differs from the
stored hmac makes Decrypt itself return the integrity error. -/
theorem retrieve_wrong_password
    (load : String → Option (List Nat))
    (parseEnv : List Nat → Option CryptoEnvelope)
    (scryptF : List Nat → List Nat → Int → Int → Int → Option (List Nat))
    (hashK : List Nat → List Nat)
    (handle : String) (pwd msg : List Nat) (env : CryptoEnvelope)
    (meta : UserKey) (sc : ScryptConfig) (key : List Nat)
    (hload : load handle = some msg)
    (hparse : parseEnv msg = some env)
    (hmeta : env.userKey = some meta)
    (hsc : meta.scrypt = some sc)
    (hka : meta.algorithm = 0)
    (hca : env.algorithm = 0)
    (hkey : scryptF pwd sc.salt sc.n sc.r sc.p = some key)
    (hhash : hashK key ≠ meta.hash) :
    (∀ (hmacFn : List Nat → List Nat → List Nat)
        (ks : List Nat → List Nat → Nat → Nat)
        (parseCmd : List Nat → Option Command),
      retrieveCommandData load parseEnv scryptF hashK hmacFn ks parseCmd handle pwd
        = .error .incorrectPassword) ∧
    (∀ (hmacFn : List Nat → List Nat → List Nat)
        (ks : List Nat → List Nat → Nat → Nat)
        (env' : CryptoEnvelope) (wrongKey : Key),
      env'.algorithm = 0 →
      hmacFn (Key.HMAC wrongKey) (hmacMsg env') ≠ env'.hmac →
      Decrypt hmacFn ks (some env') wrongKey = .error .integrity) := by
  constructor
  · intro hmacFn ks parseCmd
    unfold retrieveCommandData
    simp only [hload, hparse, hmeta, hsc, hkey]
    simp [hka, hca, hhash]
  · intro hmacFn ks env' wrongKey ha hne
    exact decrypt_integrity_of_mismatch hmacFn ks env' wrongKey ha hne

/-- Witness for C6: the wrong password 8 derives a key whose hash differs
from the stored hash, and retrieval fails with the incorrect-password
error. -/
theorem retrieve_wrong_password_witness :
    retrieveCommandData tLoad tParseEnv tScryptFn tHash tHMAC tKS tParseCmdGood
        "cmd" [8] = .error .incorrectPassword :=
  (retrieve_wrong_password tLoad tParseEnv tScryptFn tHash "cmd" [8] [1] tEnvM
      tMeta { salt := tSalt, n := 16384, r := 8, p := 1 } (List.replicate 64 15)
      (by decide) (by decide) (by decide) (by decide) (by decide) (by decide)
      (by decide) (by decide)).1 tHMAC tKS tParseCmdGood

/-- C7: in attached mode a child that exits normally with code N makes
runCmd report exit status N (37 yields 37), the process exit code of the
whole tool equals that child exit code, and every operational error with
no child status (password prompt failure, retrieval failure, start
failure) makes the tool exit with the fixed non-zero code 1. -/
theorem exit_propagation :
    (∀ n : Nat, (runCmd (some (goWait n))).1 = n) ∧
    (runCmd (some (goWait 37))).1 = 37 ∧
    (∀ (n : Nat) (c : Command),
      toolExit (some ()) (.ok c) (some (goWait n)) = .ok n) ∧
    (∀ (e : RetrieveErr) (start : Option (Option WaitErr)),
      toolExit (some ()) (.error e) start = .ok 1) ∧
    (∀ c : Command, toolExit (some ()) (.ok c) none = .ok 1) ∧
    (∀ (retr : Outcome RetrieveErr Command) (start : Option (Option WaitErr)),
      toolExit none retr start = .ok 1) := by
  have hrun : ∀ n : Nat, runCmd (some (goWait n)) = (n, decide (n ≠ 0)) := by
    intro n
    by_cases h : n = 0 <;> simp [goWait, runCmd, h]
  refine ⟨?_, ?_, ?_, ?_, ?_, ?_⟩
  · intro n; rw [hrun]
  · rw [hrun]
  · intro n c
    rw [toolExit, doCmdRun, hrun]
    by_cases h : n = 0 <;> simp [mainExit, h]
  · intro e start; rfl
  · intro c; rfl
  · intro retr start; rfl

/-! Supervisor concurrency lemmas for C8. -/

theorem supInv_init : SupInv supInit := by
  refine ⟨?_, ?_, ?_, ?_, ?_, ?_, ?_⟩ <;> simp [supInit]

theorem supInv_step {s t : SupState} (hst : SupStep s t) (hs : SupInv s) :
    SupInv t := by
  obtain ⟨h1, h2, h3, h4, h5, h6, h7⟩ := hs
  cases hst with
  | childExits hc =>
    refine ⟨?_, ?_, ?_, ?_, ?_, ?_, ?_⟩ <;> simp_all
  | waitReturns hc hp =>
    refine ⟨?_, ?_, ?_, ?_, ?_, ?_, ?_⟩ <;> simp_all
  | sendExitErr hp =>
    refine ⟨?_, ?_, ?_, ?_, ?_, ?_, ?_⟩ <;> simp_all
  | skipSendExit hp =>
    refine ⟨?_, ?_, ?_, ?_, ?_, ?_, ?_⟩ <;> simp_all
  | closeExitCh hp =>
    refine ⟨?_, ?_, ?_, ?_, ?_, ?_, ?_⟩ <;> simp_all
  | closeWaitCh hp =>
    refine ⟨?_, ?_, ?_, ?_, ?_, ?_, ?_⟩ <;> simp_all
  | mainRecvValue he hm =>
    refine ⟨?_, ?_, ?_, ?_, ?_, ?_, ?_⟩ <;> simp_all
  | mainRecvClosed he hc hm =>
    refine ⟨?_, ?_, ?_, ?_, ?_, ?_, ?_⟩ <;> simp_all
    omega
  | sigArrives hsig =>
    refine ⟨?_, ?_, ?_, ?_, ?_, ?_, ?_⟩ <;> simp_all
  | fwdSignal hf hsig =>
    refine ⟨?_, ?_, ?_, ?_, ?_, ?_, ?_⟩ <;> simp_all
  | fwdObserves hf hw =>
    refine ⟨?_, ?_, ?_, ?_, ?_, ?_, ?_⟩ <;> simp_all

theorem supInv_reachable (s : SupState) (h : SupReachable s) : SupInv s := by
  unfold SupReachable at h
  induction h with
  | refl => exact supInv_init
  | tail _ hstep ih => exact supInv_step hstep ih

/-- Counterexample for C8: in the interleaving semantics of runCmdAsync
and runCmd, the state supStateA is reachable, where runCmd has already
returned to its caller (mainReturned) having consumed the ExitError from
the buffered exit channel, while the exit channel is not even closed yet,
waitCh is still open and the forwarding goroutine is still running
(fwdDone is false); and the state supStateB is reachable, where a signal
pending when the completion signal fired was forwarded afterwards,
because select may pick the signal case even when waitCh is already
closed. -/
theorem supervisor_ordering_counterexample :
    (SupReachable supStateA ∧ supStateA.mainReturned = true ∧
      supStateA.fwdDone = false ∧ supStateA.exitClosed = false) ∧
    (SupReachable supStateB ∧ supStateB.fwdAfterComplete = true) := by
  constructor
  · refine ⟨?_, rfl, rfl, rfl⟩
    have t1 : SupStep supInit
        (⟨false, 0, false, false, false, false, false, false, false⟩ : SupState) :=
      SupStep.childExits supInit rfl
    have t2 : SupStep (⟨false, 0, false, false, false, false, false, false, false⟩ : SupState)
        (⟨false, 1, false, false, false, false, false, false, false⟩ : SupState) :=
      SupStep.waitReturns _ rfl rfl
    have t3 : SupStep (⟨false, 1, false, false, false, false, false, false, false⟩ : SupState)
        (⟨false, 2, true, false, false, false, false, false, false⟩ : SupState) :=
      SupStep.sendExitErr _ rfl
    have t4 : SupStep (⟨false, 2, true, false, false, false, false, false, false⟩ : SupState)
        supStateA :=
      SupStep.mainRecvValue _ rfl rfl
    exact Relation.ReflTransGen.head t1 (Relation.ReflTransGen.head t2
      (Relation.ReflTransGen.head t3 (Relation.ReflTransGen.head t4
        Relation.ReflTransGen.refl)))
  · refine ⟨?_, rfl⟩
    have t1 : SupStep supInit
        (⟨true, 0, false, false, false, false, false, true, false⟩ : SupState) :=
      SupStep.sigArrives supInit rfl
    have t2 : SupStep (⟨true, 0, false, false, false, false, false, true, false⟩ : SupState)
        (⟨false, 0, false, false, false, false, false, true, false⟩ : SupState) :=
      SupStep.childExits _ rfl
    have t3 : SupStep (⟨false, 0, false, false, false, false, false, true, false⟩ : SupState)
        (⟨false, 1, false, false, false, false, false, true, false⟩ : SupState) :=
      SupStep.waitReturns _ rfl rfl
    have t4 : SupStep (⟨false, 1, false, false, false, false, false, true, false⟩ : SupState)
        (⟨false, 2, false, false, false, false, false, true, false⟩ : SupState) :=
      SupStep.skipSendExit _ rfl
    have t5 : SupStep (⟨false, 2, false, false, false, false, false, true, false⟩ : SupState)
        (⟨false, 3, false, true, false, false, false, true, false⟩ : SupState) :=
      SupStep.closeExitCh _ rfl
    have t6 : SupStep (⟨false, 3, false, true, false, false, false, true, false⟩ : SupState)
        (⟨false, 4, false, true, true, false, false, true, false⟩ : SupState) :=
      SupStep.closeWaitCh _ rfl
    have t7 : SupStep (⟨false, 4, false, true, true, false, false, true, false⟩ : SupState)
        supStateB :=
      SupStep.fwdSignal _ rfl rfl
    exact Relation.ReflTransGen.head t1 (Relation.ReflTransGen.head t2
      (Relation.ReflTransGen.head t3 (Relation.ReflTransGen.head t4
        (Relation.ReflTransGen.head t5 (Relation.ReflTransGen.head t6
          (Relation.ReflTransGen.head t7 Relation.ReflTransGen.refl))))))

/-- C8 amended: in every reachable state of the attached-mode supervisor,
the forwarding task has terminated only if the completion signal (waitCh)
has fired, the completion signal fires only after the child has exited and
the exit channel was closed, and runCmd has returned only after the child
has exited.  The original stronger claim is false: runCmd may return
before the forwarding task observes completion (and even before the exit
channel is closed, by consuming the buffered ExitError), and a pending
signal may still be forwarded after the completion signal fires. -/
theorem supervisor_ordering (s : SupState) (h : SupReachable s) :
    (s.fwdDone = true → s.waitClosed = true) ∧
    (s.waitClosed = true → s.childRunning = false ∧ s.exitClosed = true) ∧
    (s.mainReturned = true → s.childRunning = false) := by
  obtain ⟨h1, h2, h3, h4, h5, h6, h7⟩ := supInv_reachable s h
  refine ⟨h7, ?_, ?_⟩
  · intro hw
    have hpc := h4.mp hw
    exact ⟨h2 (by omega), h3.mpr (by omega)⟩
  · intro hm
    have hpc := h6 hm
    exact h2 (by omega)

/-- Witness for C8 amended at the initial state. -/
theorem supervisor_ordering_witness :
    (supInit.fwdDone = true → supInit.waitClosed = true) ∧
    (supInit.waitClosed = true →
      supInit.childRunning = false ∧ supInit.exitClosed = true) ∧
    (supInit.mainReturned = true → supInit.childRunning = false) :=
  supervisor_ordering supInit Relation.ReflTransGen.refl

end Cmdsafe
